import Mathlib

/-!
Verification of the classification-and-extraction engine of
`src/data-pipeline/01_scan_hd_shows/catalog_shows_v3_1.py` (the cataloger for
concert show folders).

The Python code is shallowly embedded: the filesystem is an inductive tree,
Python strings are Lean `String`s (the inputs exercised here are ASCII, and
`str.encode("utf-8")` on ASCII text is the list of code points), `hashlib.sha1`
is implemented bit-for-bit over byte lists, and the fixed regular expressions
of the source are compiled by hand into matchers with Python's
leftmost-match/greedy/backtracking semantics.  External collaborators
(`ffprobe`, `textutil`, `diskutil`) never influence the properties verified
here and are not modelled; the per-folder `try/except` of `scan_roots` is
modelled by an oracle `raises : String → Bool` saying on which directories an
unhandled exception occurs.
-/

set_option maxRecDepth 10000

/-! ## Basic character and string helpers (Python semantics) -/

/-- Python `\s` class (`str.strip` / `\s` in the regexes): space, tab,
newline, carriage return, vertical tab, form feed. -/
def isPySpace (c : Char) : Bool :=
  c = ' ' || c = '\t' || c = '\n' || c = '\r' || c = '\x0b' || c = '\x0c'

def isAsciiDigit (c : Char) : Bool := '0' ≤ c && c ≤ '9'

def isAsciiLetter (c : Char) : Bool :=
  ('a' ≤ c && c ≤ 'z') || ('A' ≤ c && c ≤ 'Z')

def isAsciiUpper (c : Char) : Bool := 'A' ≤ c && c ≤ 'Z'

/-- Regex `\w` (word character) over the ASCII inputs used here. -/
def isWordChar (c : Char) : Bool := isAsciiLetter c || isAsciiDigit c || c = '_'

def lowerChar (c : Char) : Char :=
  if 'A' ≤ c && c ≤ 'Z' then Char.ofNat (c.toNat + 32) else c

def upperChar (c : Char) : Char :=
  if 'a' ≤ c && c ≤ 'z' then Char.ofNat (c.toNat - 32) else c

/-- Python `str.lower()` restricted to ASCII (all inputs considered here). -/
def pyLower (s : String) : String := (s.toList.map lowerChar).asString

/-- Python `str.upper()` restricted to ASCII. -/
def pyUpper (s : String) : String := (s.toList.map upperChar).asString

/-- Python `str.strip()`: drop `\s` characters from both ends. -/
def pyStrip (s : String) : String :=
  (((s.toList.dropWhile isPySpace).reverse.dropWhile isPySpace).reverse).asString

/-- Python `str.rstrip()`. -/
def pyRstrip (s : String) : String :=
  ((s.toList.reverse.dropWhile isPySpace).reverse).asString

/-- Split a character list at every occurrence of a character satisfying
`sep`, keeping empty pieces. -/
def splitCharsBy (sep : Char → Bool) : List Char → List (List Char)
  | [] => [[]]
  | c :: rest =>
    if sep c then [] :: splitCharsBy sep rest
    else
      match splitCharsBy sep rest with
      | [] => [[c]]
      | p :: ps => (c :: p) :: ps

/-- Python `str.splitlines()` for `\n`-separated text (the only line
separator appearing in the notes handled here): like splitting on `\n` but
without the trailing empty piece produced by a final newline, and `[]` for
the empty string. -/
def pySplitlines (s : String) : List String :=
  let parts := (splitCharsBy (fun c => c = '\n') s.toList).map List.asString
  match parts.getLast? with
  | some "" => parts.dropLast
  | _ => parts

/-- Decimal digits of `n`, computed with explicit fuel so that the
definition is structurally recursive (and hence evaluates inside the
kernel); `fuel = n` always suffices. -/
def natDigitsFuel : Nat → Nat → List Char
  | 0, n => [Char.ofNat (n % 10 + 48)]
  | fuel + 1, n =>
    if n < 10 then [Char.ofNat (n + 48)]
    else natDigitsFuel fuel (n / 10) ++ [Char.ofNat (n % 10 + 48)]

/-- Decimal rendering of a natural number (Python `str(n)` / `f"{n:d}"`). -/
def natToString (n : Nat) : String :=
  (natDigitsFuel n n).asString

/-- Numeric value of a list of decimal digit characters. -/
def natOfDigits (ds : List Char) : Nat :=
  ds.foldl (fun acc c => acc * 10 + (c.toNat - 48)) 0

/-! ## SHA-1 (`hashlib.sha1`)

A byte-for-byte implementation over byte lists, structurally recursive
throughout so that digests evaluate inside the kernel. -/

def mask32 (n : Nat) : Nat := n % 4294967296

def rotl32 (n k : Nat) : Nat :=
  mask32 (n * 2 ^ k) ||| (n / 2 ^ (32 - k))

/-- The eight big-endian bytes of the 64-bit message bit length. -/
def sha1LenBytes (bits : Nat) : List Nat :=
  [56, 48, 40, 32, 24, 16, 8, 0].map fun s => bits / 2 ^ s % 256

/-- Merkle–Damgård padding: a `0x80` byte, zeros to 56 mod 64, then the
bit length. -/
def sha1Pad (msg : List Nat) : List Nat :=
  msg ++ 128 :: List.replicate ((119 - msg.length % 64) % 64) 0
      ++ sha1LenBytes (msg.length * 8)

/-- Big-endian 32-bit words of a byte list (length a multiple of 4 here). -/
def bytesToWords : List Nat → List Nat
  | b0 :: b1 :: b2 :: b3 :: rest =>
    (((b0 * 256 + b1) * 256 + b2) * 256 + b3) :: bytesToWords rest
  | _ => []

/-- Message schedule: extend 16 words to 80.  The accumulator keeps the
words most-recent-first, so `W[i-3]`, `W[i-8]`, `W[i-14]`, `W[i-16]` are at
positions 2, 7, 13, 15. -/
def sha1Schedule (ws : List Nat) : List Nat :=
  ((List.range 64).foldl
    (fun acc _ =>
      rotl32 (acc.getD 2 0 ^^^ acc.getD 7 0 ^^^ acc.getD 13 0 ^^^ acc.getD 15 0) 1 :: acc)
    ws.reverse).reverse

def sha1Round (st : Nat × Nat × Nat × Nat × Nat) (iw : Nat × Nat) : Nat × Nat × Nat × Nat × Nat :=
  let (a, b, c, d, e) := st
  let (i, w) := iw
  let f :=
    if i < 20 then (b &&& c) ||| ((b ^^^ 4294967295) &&& d)
    else if i < 40 then b ^^^ c ^^^ d
    else if i < 60 then (b &&& c) ||| (b &&& d) ||| (c &&& d)
    else b ^^^ c ^^^ d
  let k :=
    if i < 20 then 1518500249
    else if i < 40 then 1859775393
    else if i < 60 then 2400959708
    else 3395469782
  let temp := mask32 (rotl32 a 5 + f + e + k + w)
  (temp, a, rotl32 b 30, c, d)

/-- Compress one 64-byte block into the running state. -/
def sha1Compress (hs : Nat × Nat × Nat × Nat × Nat) (block : List Nat) :
    Nat × Nat × Nat × Nat × Nat :=
  let (h0, h1, h2, h3, h4) := hs
  let w := sha1Schedule (bytesToWords block)
  let (a, b, c, d, e) :=
    ((List.range 80).zip w).foldl sha1Round (h0, h1, h2, h3, h4)
  (mask32 (h0 + a), mask32 (h1 + b), mask32 (h2 + c), mask32 (h3 + d), mask32 (h4 + e))

def sha1Init : Nat × Nat × Nat × Nat × Nat :=
  (1732584193, 4023233417, 2562383102, 271733878, 3285377520)

/-- Absorb the padded byte stream, compressing after every 64th byte. -/
def sha1Absorb (st : (Nat × Nat × Nat × Nat × Nat) × Nat × List Nat) (b : Nat) :
    (Nat × Nat × Nat × Nat × Nat) × Nat × List Nat :=
  let (hs, cnt, curRev) := st
  if cnt = 63 then (sha1Compress hs (b :: curRev).reverse, 0, [])
  else (hs, cnt + 1, b :: curRev)

/-- The five 32-bit state words of the SHA-1 digest of a byte list. -/
def sha1Words (msg : List Nat) : Nat × Nat × Nat × Nat × Nat :=
  ((sha1Pad msg).foldl sha1Absorb (sha1Init, 0, [])).1

def hexChar (n : Nat) : Char :=
  if n < 10 then Char.ofNat (48 + n) else Char.ofNat (87 + n)

def word32HexChars (n : Nat) : List Char :=
  [28, 24, 20, 16, 12, 8, 4, 0].map fun s => hexChar (n / 2 ^ s % 16)

/-- `hashlib.sha1(...).hexdigest()` as a list of 40 lowercase hex chars. -/
def sha1HexChars (msg : List Nat) : List Char :=
  let (h0, h1, h2, h3, h4) := sha1Words msg
  word32HexChars h0 ++ word32HexChars h1 ++ word32HexChars h2
    ++ word32HexChars h3 ++ word32HexChars h4

def sha1Hex (msg : List Nat) : String := (sha1HexChars msg).asString

/-- UTF-8 bytes of a string; on the ASCII inputs used throughout this
development these are exactly the code points. -/
def strBytes (s : String) : List Nat := s.toList.map Char.toNat

/-! ## The filesystem model

A read-only directory tree: files carry their byte content (`stat.st_size`
is the byte count), directories carry their children in listing order. -/

inductive FSEntry where
  | file (name : String) (content : List Nat)
  | dir (name : String) (children : List FSEntry)

def FSEntry.nameOf : FSEntry → String
  | .file n _ => n
  | .dir n _ => n

def FSEntry.isFile : FSEntry → Bool
  | .file _ _ => true
  | .dir _ _ => false

def FSEntry.isDir : FSEntry → Bool
  | .file _ _ => false
  | .dir _ _ => true

/-- `Path.iterdir()`: the directory's children (a file has none; `iterdir`
on a file raises, and every caller catches that and treats it as "no
children"). -/
def FSEntry.childrenOf : FSEntry → List FSEntry
  | .file _ _ => []
  | .dir _ cs => cs

def FSEntry.contentOf : FSEntry → List Nat
  | .file _ c => c
  | .dir _ _ => []

/-- `pathlib.PurePath.suffix`: the extension of the final component,
i.e. `name[i:]` for `i = name.rfind('.')` when `0 < i < len(name) - 1`,
else the empty string. -/
def pathSuffix (name : String) : String :=
  let cs := name.toList
  let aft := cs.reverse.takeWhile (fun c => c ≠ '.')
  if aft.length = cs.length then ""
  else if aft.length = 0 then ""
  else if cs.length - 1 - aft.length = 0 then ""
  else ('.' :: aft.reverse).asString

/-- `VIDEO_EXTS` from the source. -/
def VIDEO_EXTS : List String :=
  [".vob", ".ts", ".mpg", ".mpeg", ".m2ts", ".mp4", ".m4v", ".avi", ".mov", ".mkv", ".wmv"]

/-- `p.suffix.lower() in VIDEO_EXTS`. -/
def hasVideoExt (name : String) : Bool := pyLower (pathSuffix name) ∈ VIDEO_EXTS

/-! ## Folder classifier (`is_show_folder` and helpers) -/

/-- `_video_ts_present`: the directory directly contains a child directory
named `video_ts` (case-insensitively) that directly contains at least one
file with suffix `.vob` (case-insensitively). -/
def video_ts_present (e : FSEntry) : Bool :=
  e.childrenOf.any fun c =>
    c.isDir && pyLower c.nameOf = "video_ts" &&
      c.childrenOf.any fun f => f.isFile && pyLower (pathSuffix f.nameOf) = ".vob"

/-- `_has_direct_video_files`: a directly-contained file with a recognized
video extension. -/
def has_direct_video_files (e : FSEntry) : Bool :=
  e.childrenOf.any fun p => p.isFile && hasVideoExt p.nameOf

/-- `_child_looks_like_show`. -/
def child_looks_like_show (c : FSEntry) : Bool :=
  video_ts_present c || has_direct_video_files c

/-- The number of child directories that independently look like shows
(the source counts these with an early exit at 2; counting them all is
equivalent for the pure classifier). -/
def countChildShowDirs (e : FSEntry) : Nat :=
  e.childrenOf.countP fun c => c.isDir && child_looks_like_show c

/-- `is_show_folder`: a qualifying `VIDEO_TS` disc structure wins
immediately; otherwise a folder with two or more child show directories is
never a show, and otherwise the folder is a show iff it directly contains a
recognized video file. -/
def is_show_folder (e : FSEntry) : Bool :=
  if video_ts_present e then true
  else if 2 ≤ countChildShowDirs e then false
  else has_direct_video_files e

/-! ## Representative media (`dvd_group_segments`, `representative_media`) -/

mutual
/-- `folder.rglob("*")`: every proper descendant, in depth-first listing
order (each child followed by its own descendants). -/
def rglobOf : FSEntry → List FSEntry
  | .file _ _ => []
  | .dir _ cs => rglobList cs
def rglobList : List FSEntry → List FSEntry
  | [] => []
  | c :: rest => c :: rglobOf c ++ rglobList rest
end

/-- The regex `(?i)^(VTS_\d{2})_\d+\.VOB$` applied to a file name: returns
the uppercased structural key `VTS_dd` and the numeric segment index (the
digits matched by `_(\d+)\.VOB$`, i.e. the run before the extension). -/
def parseVobName (name : String) : Option (String × Nat) :=
  match name.toList with
  | v :: t :: s :: u1 :: d1 :: d2 :: u2 :: rest =>
    if lowerChar v = 'v' && lowerChar t = 't' && lowerChar s = 's' && u1 = '_' &&
        isAsciiDigit d1 && isAsciiDigit d2 && u2 = '_' then
      let digs := rest.takeWhile isAsciiDigit
      let tail := rest.drop digs.length
      if digs ≠ [] && (tail.map lowerChar) = ['.', 'v', 'o', 'b'] then
        some (("VTS_" ++ [d1, d2].asString), natOfDigits digs)
      else none
    else none
  | _ => none

/-- Segment index used as the sort key inside a group. -/
def vobSegNum (f : FSEntry) : Nat := ((parseVobName f.nameOf).map (·.2)).getD 0

/-- Stable insertion preserving earlier elements with equal or smaller
keys (the sort below models Python's stable `sorted`). -/
def insertBySeg (x : FSEntry) : List FSEntry → List FSEntry
  | [] => [x]
  | y :: ys => if vobSegNum y ≤ vobSegNum x then y :: insertBySeg x ys else x :: y :: ys

def sortBySeg : List FSEntry → List FSEntry
  | [] => []
  | x :: xs => insertBySeg x (sortBySeg xs)

/-- `groups.setdefault(key, []).append(v)`: append to the existing key,
otherwise add the key at the end (dict insertion order). -/
def addVobToGroups : List (String × List FSEntry) → String → FSEntry → List (String × List FSEntry)
  | [], k, v => [(k, [v])]
  | (k', vs) :: rest, k, v =>
    if k' = k then (k', vs ++ [v]) :: rest else (k', vs) :: addVobToGroups rest k v

def groupByteSize (g : List FSEntry) : Nat := (g.map fun f => f.contentOf.length).sum

/-- One step of the best-group selection: `best_total` starts at `-1` in
the source, so the first group always replaces the initial (empty) state;
afterwards only a strictly larger total wins. -/
def pickStep (best : Option (List FSEntry × Nat)) (kg : String × List FSEntry) :
    Option (List FSEntry × Nat) :=
  let total := groupByteSize kg.2
  match best with
  | none => some (kg.2, total)
  | some (g, t) => if total > t then some (kg.2, total) else some (g, t)

def pickBestGroup (gs : List (String × List FSEntry)) : List FSEntry :=
  match gs.foldl pickStep none with
  | some (g, _) => g
  | none => []

/-- `dvd_group_segments`: locate the first `VIDEO_TS` directory anywhere
under the folder, group its `.VOB` files by the `VTS_dd` structural key,
sort each group by segment index and return the group with the greatest
cumulative byte size. -/
def dvd_group_segments (e : FSEntry) : List FSEntry :=
  match (rglobOf e).find? (fun p => p.isDir && pyLower p.nameOf = "video_ts") with
  | none => []
  | some vts =>
    let vobs := vts.childrenOf.filter fun p =>
      p.isFile && pyLower (pathSuffix p.nameOf) = ".vob"
    let groups := vobs.foldl
      (fun gs v =>
        match parseVobName v.nameOf with
        | some (k, _) => addVobToGroups gs k v
        | none => gs)
      []
    pickBestGroup (groups.map fun kg => (kg.1, sortBySeg kg.2))

/-- `representative_media`: the best disc-structure segment group if one
exists (container `.vob`), else the single largest directly- or
indirectly-contained video file.  `best_size` starts at `0` with a strict
comparison, exactly as in the source. -/
def representative_media (e : FSEntry) : List FSEntry × String :=
  match dvd_group_segments e with
  | [] =>
    let best := (rglobOf e).foldl
      (fun (b : Option FSEntry × Nat) p =>
        if p.isFile && hasVideoExt p.nameOf then
          let s := p.contentOf.length
          if s > b.2 then (some p, s) else b
        else b)
      (none, 0)
    match best.1 with
    | some p => ([p], pyLower (pathSuffix p.nameOf))
    | none => ([], "")
  | g => (g, ".vob")

/-! ## Row assembly and the scan walk (`scan_roots`) -/

/-- `sha1_of_files_in_order`: one incremental SHA-1 digest fed each file's
bytes in list order — the digest of the concatenation.  (The source
returns `""` if reading a file raises; the filesystem model cannot fail.) -/
def sha1_of_files_in_order (files : List FSEntry) : String :=
  sha1Hex (files.flatMap FSEntry.contentOf)

/-- `normalize_show_id`: first 12 hex chars of the SHA-1 of the (unresolved)
directory path string. -/
def normalize_show_id (path : String) : String :=
  ((sha1HexChars (strBytes path)).take 12).asString

/-- The fields of a catalog row that the scan loop itself computes.  The
remaining columns (artist, date, location, setlist, lineage, media
parameters, sizes, timestamps) are produced by the per-folder extractors
and probers, are independent of the walk state, and are not inspected by
any property proved below, so they are not carried on the row. -/
structure ScanRow where
  show_id : String
  folder_name : String
  folder_path : String
  rep_video_count : String
  container : String
  checksum_sha1 : String
  duplicate_of : String
  extraction_warnings : String
deriving DecidableEq, Inhabited

structure ScanState where
  rows : List ScanRow
  seen_ids : List String
  checksum_to_showid : List (String × String)
deriving Inhabited

structure ScanCfg where
  do_checksums : Bool
  /-- Oracle for the per-folder `try/except`: directories on which an
  unhandled exception occurs while classifying or extracting. -/
  raises : String → Bool

/-- First-match association lookup (`ch in checksum_to_showid` /
`checksum_to_showid[ch]`). -/
def lookupStr (m : List (String × String)) (k : String) : Option String :=
  match m.find? (fun kv => kv.1 = k) with
  | some kv => some kv.2
  | none => none

def excludedName (n : String) : Bool :=
  pyLower n ∈ ["video_ts", "audio_ts", "info", "nfo", "docs", "artwork", "extras"]

/-- The minimal fallback row built in the `except` handler of the walk
body (projected to the modelled fields). -/
def stubRow (path name : String) : ScanRow :=
  { show_id := normalize_show_id path
    folder_name := name
    folder_path := path
    rep_video_count := "0"
    container := ""
    checksum_sha1 := ""
    duplicate_of := ""
    extraction_warnings := "Unhandled error while scanning this folder" }

/-- The show-folder arm of the walk body: register the identifier (the
`show_id in seen_ids` test only re-clears `dirnames`, which the end of the
arm clears unconditionally anyway — the row is built and appended in every
case), choose representative media, and do the checksum/duplicate
bookkeeping of lines 1075–1081. -/
def showStep (cfg : ScanCfg) (st : ScanState) (path : String) (e : FSEntry) : ScanState :=
  let show_id := normalize_show_id path
  let seen := show_id :: st.seen_ids
  let rep := representative_media e
  let base : ScanRow :=
    { show_id := show_id
      folder_name := e.nameOf
      folder_path := path
      rep_video_count := natToString rep.1.length
      container := rep.2
      checksum_sha1 := ""
      duplicate_of := ""
      extraction_warnings := "" }
  if cfg.do_checksums = true ∧ rep.1.isEmpty = false then
    let ch := sha1_of_files_in_order rep.1
    if ch ≠ "" then
      match lookupStr st.checksum_to_showid ch with
      | some prev =>
        { rows := st.rows ++ [{ base with checksum_sha1 := ch, duplicate_of := prev }]
          seen_ids := seen
          checksum_to_showid := st.checksum_to_showid }
      | none =>
        { rows := st.rows ++ [{ base with checksum_sha1 := ch }]
          seen_ids := seen
          checksum_to_showid := (ch, show_id) :: st.checksum_to_showid }
    else
      { rows := st.rows ++ [{ base with checksum_sha1 := ch }]
        seen_ids := seen
        checksum_to_showid := st.checksum_to_showid }
  else
    { rows := st.rows ++ [base]
      seen_ids := seen
      checksum_to_showid := st.checksum_to_showid }

mutual
/-- One iteration of the `os.walk` loop body for the directory at `path`.
An oracle hit takes the `except` branch: append the stub row, clear
`dirnames`, continue with siblings.  A denylisted name clears `dirnames`
and continues.  A show folder runs `showStep` and clears `dirnames`.  Any
other directory looks for loose video files — but `build_row_for_loose_file`
is defined nowhere in the repository, so that call raises `NameError`,
which the bare `except: pass` swallows: no row is appended — and then
descends into its subdirectories. -/
def walkEntry (cfg : ScanCfg) (st : ScanState) (path : String) (e : FSEntry) : ScanState :=
  match e with
  | .file _ _ => st
  | .dir n cs =>
    if cfg.raises path then
      { st with rows := st.rows ++ [stubRow path n] }
    else if excludedName n then st
    else if is_show_folder (.dir n cs) then showStep cfg st path (.dir n cs)
    else walkSubdirs cfg st path cs
/-- `os.walk` descends into the subdirectories (only) of a directory, in
listing order. -/
def walkSubdirs (cfg : ScanCfg) (st : ScanState) (parent : String) : List FSEntry → ScanState
  | [] => st
  | c :: rest =>
    match c with
    | .file _ _ => walkSubdirs cfg st parent rest
    | .dir n cs =>
      walkSubdirs cfg (walkEntry cfg st (parent ++ "/" ++ n) (.dir n cs)) parent rest
end

/-- `scan_roots` up to (and excluding) the final cosmetic sort of lines
1133–1137, which permutes the finished rows without changing any field:
all properties below are about the rows in emission order.  Roots are
given with their mount paths; non-existent roots cannot arise in the
model. -/
def scanRootsState (cfg : ScanCfg) (roots : List (String × FSEntry)) : ScanState :=
  roots.foldl (fun st r => walkEntry cfg st r.1 r.2) ⟨[], [], []⟩

/-- The emitted rows of a scan. -/
def scan_rows (cfg : ScanCfg) (roots : List (String × FSEntry)) : List ScanRow :=
  (scanRootsState cfg roots).rows

/-! ## Setlist extraction helpers -/

/-- Does `cs` start with `pre`? -/
def startsWithSeq (pre cs : List Char) : Bool := cs.take pre.length = pre

/-- Does `cs` contain `pat` as a contiguous subsequence? -/
def containsSeq (pat : List Char) : List Char → Bool
  | [] => pat.isEmpty
  | c :: rest => startsWithSeq pat (c :: rest) || containsSeq pat rest

/-- `re.sub(r"\s{2,}", " ", s)`: every run of two or more whitespace
characters becomes a single space; lone whitespace characters stay. -/
def collapseWs (s : String) : String := (go false s.toList).asString
where
  go : Bool → List Char → List Char
    | _, [] => []
    | skipping, c :: rest =>
      if isPySpace c then
        if skipping then go true rest
        else
          match rest with
          | d :: _ => if isPySpace d then ' ' :: go true rest else c :: go false rest
          | [] => c :: go false rest
      else c :: go false rest

/-- Python `str.strip(chars)`. -/
def stripChars (set : List Char) (s : String) : String :=
  (((s.toList.dropWhile (· ∈ set)).reverse.dropWhile (· ∈ set)).reverse).asString

def countLetters (s : String) : Nat := s.toList.countP isAsciiLetter

/-! ## Date extraction (`DATE_PATTERNS`, `guess_date`)

The three patterns are compiled by hand with Python's semantics:
leftmost match, greedy bounded quantifiers with backtracking, and `\b`
word boundaries. -/

/-- `\b` between a preceding character and a word character: the previous
character must not be a word character. -/
def boundaryBefore (prev : Option Char) : Bool :=
  match prev with
  | none => true
  | some c => !isWordChar c

/-- `\b` after the match: the next character must not be a word character. -/
def boundaryAfter (rest : List Char) : Bool :=
  match rest with
  | [] => true
  | c :: _ => !isWordChar c

/-- Greedy candidates for `\d{len}` quantifiers: for each length in
`lens` (listed longest-first), the numeric value of that many leading
digits, with the remaining input. -/
def digitCands (lens : List Nat) (cs : List Char) : List (Nat × List Char) :=
  lens.filterMap fun n =>
    let pre := cs.take n
    if pre.length = n ∧ pre.all isAsciiDigit then some (natOfDigits pre, cs.drop n)
    else none

/-- Greedy candidates for `[A-Za-z]{len}` quantifiers. -/
def letterCands (lens : List Nat) (cs : List Char) : List (String × List Char) :=
  lens.filterMap fun n =>
    let pre := cs.take n
    if pre.length = n ∧ pre.all isAsciiLetter then some (pre.asString, cs.drop n)
    else none

def isDateSep (c : Char) : Bool := c = '-' || c = '/' || c = '.'

/-- Anchored match of the first date pattern: `\b`, four digits, a
separator (dash, slash or dot), one or two digits, a separator, one or
two digits, `\b`. -/
def matchPat1At (prev : Option Char) (cs : List Char) : Option (Nat × Nat × Nat) :=
  if boundaryBefore prev then
    (digitCands [4] cs).findSome? fun yc =>
      match yc.2 with
      | s1 :: r1 =>
        if isDateSep s1 then
          (digitCands [2, 1] r1).findSome? fun mc =>
            match mc.2 with
            | s2 :: r2 =>
              if isDateSep s2 then
                (digitCands [2, 1] r2).findSome? fun dc =>
                  if boundaryAfter dc.2 then some (yc.1, mc.1, dc.1) else none
              else none
            | [] => none
        else none
      | [] => none
  else none

/-- Anchored match of the ambiguous numeric date pattern: `\b`, one or
two digits, a separator (dash, slash or dot), one or two digits, a
separator, two to four digits, `\b`. -/
def matchPat2At (prev : Option Char) (cs : List Char) : Option (Nat × Nat × Nat) :=
  if boundaryBefore prev then
    (digitCands [2, 1] cs).findSome? fun ac =>
      match ac.2 with
      | s1 :: r1 =>
        if isDateSep s1 then
          (digitCands [2, 1] r1).findSome? fun bc =>
            match bc.2 with
            | s2 :: r2 =>
              if isDateSep s2 then
                (digitCands [4, 3, 2] r2).findSome? fun cc =>
                  if boundaryAfter cc.2 then some (ac.1, bc.1, cc.1) else none
              else none
            | [] => none
        else none
      | [] => none
  else none

/-- Anchored match of `\b([A-Za-z]{3,9})\s+(\d{1,2}),?\s+(\d{4})\b`. -/
def matchPat3At (prev : Option Char) (cs : List Char) : Option (String × Nat × Nat) :=
  if boundaryBefore prev then
    (letterCands [9, 8, 7, 6, 5, 4, 3] cs).findSome? fun mc =>
      let sp1 := mc.2.takeWhile isPySpace
      let r1 := mc.2.drop sp1.length
      if sp1.isEmpty then none
      else
        (digitCands [2, 1] r1).findSome? fun dc =>
          let afterComma : List Char → Option (String × Nat × Nat) := fun r =>
            let sp2 := r.takeWhile isPySpace
            let r2 := r.drop sp2.length
            if sp2.isEmpty then none
            else
              (digitCands [4] r2).findSome? fun yc =>
                if boundaryAfter yc.2 then some (mc.1, dc.1, yc.1) else none
          match dc.2 with
          | ',' :: r' =>
            -- `,?` is greedy: try with the comma consumed first
            match afterComma r' with
            | some res => some res
            | none => afterComma dc.2
          | _ => afterComma dc.2
  else none

/-- `re.search`: try each start position left to right. -/
def searchPat1 : Option Char → List Char → Option (Nat × Nat × Nat)
  | prev, cs =>
    match matchPat1At prev cs with
    | some r => some r
    | none =>
      match cs with
      | [] => none
      | c :: rest => searchPat1 (some c) rest

def searchPat2 : Option Char → List Char → Option (Nat × Nat × Nat)
  | prev, cs =>
    match matchPat2At prev cs with
    | some r => some r
    | none =>
      match cs with
      | [] => none
      | c :: rest => searchPat2 (some c) rest

def searchPat3 : Option Char → List Char → Option (String × Nat × Nat)
  | prev, cs =>
    match matchPat3At prev cs with
    | some r => some r
    | none =>
      match cs with
      | [] => none
      | c :: rest => searchPat3 (some c) rest

/-- `datetime.strptime(mon[:3], "%b").month` — the three-letter English
month abbreviations, case-insensitively; anything else raises, which the
`except` turns into trying the next pattern (there is none). -/
def monthNum (mon : String) : Option Nat :=
  match pyLower ((mon.toList.take 3).asString) with
  | "jan" => some 1 | "feb" => some 2 | "mar" => some 3 | "apr" => some 4
  | "may" => some 5 | "jun" => some 6 | "jul" => some 7 | "aug" => some 8
  | "sep" => some 9 | "oct" => some 10 | "nov" => some 11 | "dec" => some 12
  | _ => none

/-- `f"{n:02d}"`. -/
def pad2 (n : Nat) : String :=
  if n < 10 then "0" ++ natToString n else natToString n

/-- `f"{n:04d}"`. -/
def pad4 (n : Nat) : String :=
  if n < 10 then "000" ++ natToString n
  else if n < 100 then "00" ++ natToString n
  else if n < 1000 then "0" ++ natToString n
  else natToString n

def fmtDate (y mo d : Nat) : String :=
  pad4 y ++ "-" ++ pad2 mo ++ "-" ++ pad2 d

/-- The assignment performed for the ambiguous numeric pattern
(`a, b, c` are the three captured numbers): a two-digit year is lifted by
2000, and a first number greater than 12 is taken as the day, otherwise
the match is read month-first.  Returns `(year, month, day)`. -/
def ambiguousTriple (a b c : Nat) : Nat × Nat × Nat :=
  let c' := if c < 100 then c + 2000 else c
  if a > 12 then (c', b, a) else (c', a, b)

/-- `guess_date`: first matching pattern wins; the month-name arm falls
through to the empty result when `strptime` rejects the month word. -/
def guess_date (text : String) : String :=
  if text = "" then ""
  else
    match searchPat1 none text.toList with
    | some (y, mo, d) => fmtDate y mo d
    | none =>
      match searchPat2 none text.toList with
      | some (a, b, c) =>
        let t := ambiguousTriple a b c
        fmtDate t.1 t.2.1 t.2.2
      | none =>
        match searchPat3 none text.toList with
        | some (mon, d, y) =>
          match monthNum mon with
          | some mo => fmtDate y mo d
          | none => ""
        | none => ""

/-! ## Setlist extraction (`extract_section_by_anchor`, `clean_song_title`,
`extract_setlist`) -/

/-- `SETLIST_ANCHORS`: the stripped line is one of the anchor words
(case-insensitively) followed by optional whitespace, an optional colon
and optional whitespace. -/
def setlistAnchorMatch (line : String) : Bool :=
  let ls := (pyLower line).toList
  ["setlist", "tracklist", "tracks", "songs"].any fun kw =>
    startsWithSeq kw.toList ls &&
      (let r := (ls.drop kw.length).dropWhile isPySpace
       match r with
       | [] => true
       | ':' :: r2 => (r2.dropWhile isPySpace).isEmpty
       | _ => false)

/-- `extract_section_by_anchor`: collect the lines after an anchor line up
to the first blank line following collected content; anchor lines
themselves are always skipped. -/
def extractSectionGo (anchor : String → Bool) :
    List String → Bool → List String → List String
  | [], _, collected => collected
  | ln :: rest, grabbing, collected =>
    if anchor (pyStrip ln) then extractSectionGo anchor rest true collected
    else if grabbing then
      if pyStrip ln = "" then
        if collected.isEmpty then extractSectionGo anchor rest true collected
        else collected
      else extractSectionGo anchor rest grabbing (collected ++ [pyRstrip ln])
    else extractSectionGo anchor rest false collected

def extract_section_by_anchor (text : String) (anchor : String → Bool) : List String :=
  if text = "" then [] else extractSectionGo anchor (pySplitlines text) false []

/-- `NON_SONG_HINTS.search`: case-insensitive substring search for any of
the non-song keywords. -/
def non_song_hints (raw : String) : Bool :=
  let ls := (pyLower raw).toList
  ["lineage", "taper", "venue", "location", "source", "video", "audio", "menu",
   "chapters", "checksum", "md5", "author", "www", "http", "https", "torrent",
   "poster"].any fun kw => containsSeq kw.toList ls

/-- The timestamp-prefix pattern of `clean_song_title`: optional leading
whitespace, then either a bracketed timestamp (`[` optional ws, 1–2
digits, `:`, 2 digits, optional ws, `]`) or a bare `d{1,2}:dd`, then
optional whitespace, an optional dash/en-dash/colon, optional whitespace,
and the captured remainder (nonempty). -/
def matchTimestampLine (raw : String) : Option String :=
  let cs := raw.toList.dropWhile isPySpace
  let tsRest : Option (List Char) :=
    match cs with
    | '[' :: r1 =>
      let r2 := r1.dropWhile isPySpace
      (digitCands [2, 1] r2).findSome? fun dc =>
        match dc.2 with
        | ':' :: r3 =>
          (digitCands [2] r3).findSome? fun mc =>
            match mc.2.dropWhile isPySpace with
            | ']' :: r5 => some r5
            | _ => none
        | _ => none
    | _ =>
      (digitCands [2, 1] cs).findSome? fun dc =>
        match dc.2 with
        | ':' :: r3 =>
          (digitCands [2] r3).findSome? fun mc => some mc.2
        | _ => none
  match tsRest with
  | none => none
  | some rest =>
    let r1 := rest.dropWhile isPySpace
    match r1 with
    | [] => none
    | c :: r2 =>
      if c = '-' || c = '–' || c = ':' then
        let r3 := r2.dropWhile isPySpace
        -- the final `(.+)` needs at least one character; on stripped
        -- input an empty remainder forces backtracking over the optional
        -- separator, whose own character then forms the group
        if r3.isEmpty then some r1.asString else some r3.asString
      else some r1.asString

/-- The character class of the `SONG_LINE` title group. -/
def inSongClass (c : Char) : Bool :=
  isAsciiLetter c || isAsciiDigit c || c = '&' || c = '/' || c = '’' || c.toNat = 39 ||
    c = '(' || c = ')' || c = '-' || c = '.' || c = ' '

/-- `SONG_LINE.match(raw)`: the optional numbering/timestamp prefix
alternatives in pattern order (with digit-count backtracking), then the
title group `[A-Za-z][class]{2,}` covering the rest of the (stripped)
line. -/
def songLineGroup (raw : String) : Option String :=
  let cs := raw.toList.dropWhile isPySpace
  let alt1 : List (List Char) :=
    (digitCands [2, 1] cs).filterMap fun dc =>
      match dc.2.dropWhile isPySpace with
      | c :: r2 =>
        if c = '.' || c = ')' || c = '-' then some (r2.dropWhile isPySpace) else none
      | [] => none
  let alt2 : List (List Char) :=
    match cs with
    | '[' :: r1 =>
      (digitCands [2, 1] r1).flatMap fun dc =>
        match dc.2 with
        | ':' :: r2 =>
          (digitCands [2] r2).filterMap fun mc =>
            match mc.2 with
            | ']' :: r3 => some (r3.dropWhile isPySpace)
            | _ => none
        | _ => []
    | _ => []
  let alt3 : List (List Char) :=
    let start := match cs with
      | '~' :: r => r
      | _ => cs
    (digitCands [2, 1] start).flatMap fun dc =>
      match dc.2 with
      | ':' :: r2 => (digitCands [2] r2).map fun mc => mc.2.dropWhile isPySpace
      | _ => []
  let alt4 : List (List Char) :=
    match cs with
    | '-' :: r => [r.dropWhile isPySpace, cs]
    | _ => [cs.dropWhile isPySpace]
  (alt1 ++ alt2 ++ alt3 ++ alt4 ++ [cs]).findSome? fun rest =>
    match rest with
    | c :: t =>
      if isAsciiLetter c then
        let run := t.takeWhile inSongClass
        if run.length ≥ 2 && (t.drop run.length).all isPySpace then
          some (c :: run).asString
        else none
      else none
    | [] => none

/-- The trailing-annotation removal
`re.sub(r"\s*\((live|cut|jam|tape|alt\.? mix|remix|reprise|acoustic|intro|outro)\)\s*$", "", title)`
(case-insensitive). -/
def stripTrailingTag (s : String) : String :=
  let ls := (pyLower s).toList
  let kws := ["live", "cut", "jam", "tape", "alt. mix", "alt mix", "remix",
              "reprise", "acoustic", "intro", "outro"]
  match kws.findSome? (fun kw =>
      let pat := ('(' :: kw.toList) ++ [')']
      if ls.length ≥ pat.length ∧ ls.drop (ls.length - pat.length) = pat then
        some (((s.toList.take (s.length - pat.length)).reverse.dropWhile
          isPySpace).reverse.asString)
      else none) with
  | some r => r
  | none => s

/-- `clean_song_title`. -/
def clean_song_title (line : String) : Option String :=
  if line = "" then none
  else
    let raw := pyStrip line
    match matchTimestampLine raw with
    | some g =>
      let t := stripChars [' ', '.', '-'] (collapseWs (pyStrip g))
      if countLetters t ≥ 2 then some t else none
    | none =>
      if non_song_hints raw then none
      else
        match songLineGroup raw with
        | none => none
        | some g =>
          let t := stripChars [' ', '.', '-'] (collapseWs (stripTrailingTag (pyStrip g)))
          if countLetters t ≥ 2 then some t else none

/-- The candidate lines fed to `clean_song_title`: the anchored setlist
block if present, else every line of the notes. -/
def setlist_candidates (notes : String) : List String :=
  let anchored := extract_section_by_anchor notes setlistAnchorMatch
  if anchored.isEmpty then pySplitlines notes else anchored

/-- The `titles`/`seen` loop of `extract_setlist`: keep each cleaned title
whose lowercase form has not been seen. -/
def setlistDedup : List String → List String → List String
  | [], _ => []
  | ln :: rest, seen =>
    match clean_song_title ln with
    | some t =>
      if pyLower t ∈ seen then setlistDedup rest seen
      else t :: setlistDedup rest (pyLower t :: seen)
    | none => setlistDedup rest seen

def setlist_titles (notes : String) : List String :=
  setlistDedup (setlist_candidates notes) []

/-- `extract_setlist`: the first 200 deduplicated titles joined by `; `. -/
def extract_setlist (notes : String) : String :=
  if notes = "" then ""
  else String.intercalate "; " ((setlist_titles notes).take 200)

/-! ## Multi-segment media merge (`scan_roots` lines 983–1010)

The per-segment descriptors come from the external prober
(`parse_media_info`); the merge logic below is what `scan_roots` does with
them for a multi-segment `.vob` representative set. -/

/-- The ten string fields of `parse_media_info`'s result. -/
structure MediaInfo where
  video_codec : String
  width : String
  height : String
  duration_sec : String
  dar : String
  sar : String
  fps : String
  audio_codec : String
  audio_channels : String
  audio_sample_rate : String
deriving DecidableEq, Inhabited

def emptyMediaInfo : MediaInfo :=
  { video_codec := "", width := "", height := "", duration_sec := "", dar := "",
    sar := "", fps := "", audio_codec := "", audio_channels := "", audio_sample_rate := "" }

/-- `int(s)` on the canonical digit strings produced by
`parse_media_info`; anything else raises (handled by the caller). -/
def pyIntOpt (s : String) : Option Nat :=
  if s ≠ "" ∧ s.toList.all isAsciiDigit then some (natOfDigits s.toList) else none

/-- The contribution of one segment to `total_dur`:
`int(info.get("duration_sec") or 0)` inside `try/except` — an empty field
is 0, an unparsable one raises and the `except` skips the addition. -/
def durContribution (s : String) : Nat :=
  if s = "" then 0 else (pyIntOpt s).getD 0

/-- The nine `if not media_info[k] and info.get(k)` assignments of the
merge loop (`duration_sec` is never copied field-wise). -/
def fillInfo (acc seg : MediaInfo) : MediaInfo :=
  { video_codec := if acc.video_codec = "" ∧ seg.video_codec ≠ "" then seg.video_codec else acc.video_codec
    width := if acc.width = "" ∧ seg.width ≠ "" then seg.width else acc.width
    height := if acc.height = "" ∧ seg.height ≠ "" then seg.height else acc.height
    duration_sec := acc.duration_sec
    dar := if acc.dar = "" ∧ seg.dar ≠ "" then seg.dar else acc.dar
    sar := if acc.sar = "" ∧ seg.sar ≠ "" then seg.sar else acc.sar
    fps := if acc.fps = "" ∧ seg.fps ≠ "" then seg.fps else acc.fps
    audio_codec := if acc.audio_codec = "" ∧ seg.audio_codec ≠ "" then seg.audio_codec else acc.audio_codec
    audio_channels := if acc.audio_channels = "" ∧ seg.audio_channels ≠ "" then seg.audio_channels else acc.audio_channels
    audio_sample_rate := if acc.audio_sample_rate = "" ∧ seg.audio_sample_rate ≠ "" then seg.audio_sample_rate else acc.audio_sample_rate }

def mergeStep (acc : MediaInfo × Nat) (seg : MediaInfo) : MediaInfo × Nat :=
  (fillInfo acc.1 seg, acc.2 + durContribution seg.duration_sec)

/-- The merged descriptor for a multi-segment representative set: fold the
per-segment descriptors in order, then install the summed duration if it
is non-zero. -/
def dvdMergeInfos (infos : List MediaInfo) : MediaInfo :=
  let r := infos.foldl mergeStep (emptyMediaInfo, 0)
  if r.2 ≠ 0 then { r.1 with duration_sec := natToString r.2 } else r.1

/-- First non-empty string of a list (empty if none). -/
def firstNonEmptyStr (l : List String) : String := ((l.find? (· ≠ "")).getD "")

/-- The first emitted row with a given checksum. -/
def firstWithChecksum (c : String) (rows : List ScanRow) : Option ScanRow :=
  rows.find? fun r => r.checksum_sha1 = c

/-! ## Location parsing (`parse_location` and helpers) -/

/-- `COUNTRY_NAMES` (exact, case-sensitive membership as in the source). -/
def COUNTRY_NAMES : List String :=
  ["United States", "USA", "US", "United Kingdom", "UK", "England", "Scotland", "Wales",
   "Germany", "France", "Spain", "Italy", "Portugal", "Netherlands", "Belgium",
   "Switzerland", "Austria", "Brazil", "Argentina", "Chile", "Mexico", "Canada",
   "Australia", "New Zealand", "Japan", "South Korea", "Norway", "Sweden", "Denmark",
   "Finland", "Ireland", "Poland", "Czech Republic", "Hungary", "Greece", "Iceland",
   "Luxembourg"]

/-- `REGION_TO_COUNTRY` with the final value of each key: the Python dict
literal lists `WA` (among the US states) and `NT` (among the Canadian
territories) again under Australia, and the later entries win. -/
def regionLookup (r : String) : Option String :=
  match (REGION_PAIRS.find? fun kv => kv.1 = r) with
  | some kv => some kv.2
  | none => none
where
  REGION_PAIRS : List (String × String) :=
    (["AL", "AK", "AZ", "AR", "CA", "CO", "CT", "DE", "FL", "GA", "HI", "ID", "IL",
      "IN", "IA", "KS", "KY", "LA", "ME", "MD", "MA", "MI", "MN", "MS", "MO", "MT",
      "NE", "NV", "NH", "NJ", "NM", "NY", "NC", "ND", "OH", "OK", "OR", "PA", "RI",
      "SC", "SD", "TN", "TX", "UT", "VT", "VA", "WV", "WI", "WY", "DC"].map
        (fun st => (st, "USA"))) ++
    (["AB", "BC", "MB", "NB", "NL", "NS", "NU", "ON", "PE", "QC", "SK", "YT"].map
        (fun pr => (pr, "Canada"))) ++
    (["NSW", "VIC", "QLD", "SA", "WA", "TAS", "ACT", "NT"].map
        (fun st => (st, "Australia"))) ++
    (["ENG", "SCT", "WLS", "NIR"].map (fun rg => (rg, "United Kingdom")))

/-- Is `last` a known country name or a region abbreviation? -/
def countryOrRegion (last : String) : Bool :=
  last ∈ COUNTRY_NAMES || (regionLookup (pyUpper last)).isSome

/-- The country a qualifying `last` denotes:
`last if last in COUNTRY_NAMES else REGION_TO_COUNTRY[last.upper()]`. -/
def countryValue (last : String) : String :=
  if last ∈ COUNTRY_NAMES then last else (regionLookup (pyUpper last)).getD ""

/-- The stripped, non-empty pieces of a comma split
(`re.split(r"\s*,\s*", ln)` followed by strip-and-filter). -/
def commaSplitParts (ln : String) : List String :=
  ((splitCharsBy (fun c => c = ',') ln.toList).map
    (fun p => pyStrip p.asString)).filter (· ≠ "")

/-- The trailing-region matcher used by tiers 2–4:
lazy group, optional whitespace, one separator from `seps`, optional
whitespace, then a final run of exactly two or three ASCII letters.
Returns the (stripped) group before the separator and the letter run. -/
def trailingRegionSplit (seps : List Char) (s : String) : Option (String × String) :=
  let rev := s.toList.reverse
  let runRev := rev.takeWhile isAsciiLetter
  if 2 ≤ runRev.length ∧ runRev.length ≤ 3 then
    match (rev.drop runRev.length).dropWhile isPySpace with
    | sep :: preRev =>
      if sep ∈ seps ∧ preRev ≠ [] then
        some (pyStrip preRev.reverse.asString, runRev.reverse.asString)
      else none
    | [] => none
  else none

/-- The tier-1 middle-part matcher: lazy group, required whitespace, then
a final run of exactly two or three uppercase letters. -/
def trailingUpperSplit (s : String) : Option (String × String) :=
  let rev := s.toList.reverse
  let runRev := rev.takeWhile isAsciiUpper
  let r1 := rev.drop runRev.length
  let wsRun := r1.takeWhile isPySpace
  if 2 ≤ runRev.length ∧ runRev.length ≤ 3 ∧ wsRun ≠ [] ∧ r1.drop wsRun.length ≠ [] then
    some (pyStrip (r1.drop wsRun.length).reverse.asString, runRev.reverse.asString)
  else none

/-- The event-line matcher: a lazy group, then the first occurrence of
whitespace, a dash or en-dash, whitespace, and a nonempty remainder.
Returns both pieces stripped. -/
def eventLineSplit (s : String) : Option (String × String) :=
  go [] s.toList
where
  go : List Char → List Char → Option (String × String)
    | accRev, rest =>
      let attempt : Option (String × String) :=
        if accRev.isEmpty then none
        else
          let sp1 := rest.takeWhile isPySpace
          if sp1.isEmpty then none
          else
            match rest.drop sp1.length with
            | d :: r2 =>
              if d = '–' || d = '-' then
                let sp2 := r2.takeWhile isPySpace
                let r3 := r2.drop sp2.length
                if sp2.isEmpty ∨ r3.isEmpty then none
                else some (pyStrip accRev.reverse.asString, pyStrip r3.asString)
              else none
            | [] => none
      match attempt with
      | some r => some r
      | none =>
        match rest with
        | [] => none
        | c :: rr => go (c :: accRev) rr

/-- The folder-name date-prefix matcher: search for `\b`, four digits, a
dash or underscore, two digits, a dash or underscore, two digits, `\b`,
then required whitespace and a nonempty remainder (the captured group). -/
def folderDateRest (prev : Option Char) (cs : List Char) : Option String :=
  let here : Option String :=
    if boundaryBefore prev then
      (digitCands [4] cs).findSome? fun y4 =>
        match y4.2 with
        | u1 :: r1 =>
          if u1 = '-' || u1 = '_' then
            (digitCands [2] r1).findSome? fun m2 =>
              match m2.2 with
              | u2 :: r2 =>
                if u2 = '-' || u2 = '_' then
                  (digitCands [2] r2).findSome? fun d2 =>
                    if boundaryAfter d2.2 then
                      let sp := d2.2.takeWhile isPySpace
                      let r3 := d2.2.drop sp.length
                      if sp.isEmpty ∨ r3.isEmpty then none else some r3.asString
                    else none
                else none
              | [] => none
          else none
        | [] => none
    else none
  match here with
  | some r => some r
  | none =>
    match cs with
    | [] => none
    | c :: rest => folderDateRest (some c) rest

def isLocSep (c : Char) : Bool := c = ',' || c = '-' || c = '|' || c = '–' || c = '—'

mutual
/-- `re.split(_SEP, cand)` where `_SEP` is one separator character
followed by optional whitespace. -/
def locSepGo : List Char → List (List Char)
  | [] => [[]]
  | c :: rest =>
    if isLocSep c then [] :: locSepSkip rest
    else
      match locSepGo rest with
      | [] => [[c]]
      | p :: ps => (c :: p) :: ps
/-- Consume the `\s*` part of a separator match. -/
def locSepSkip : List Char → List (List Char)
  | [] => [[]]
  | c :: rest =>
    if isPySpace c then locSepSkip rest
    else if isLocSep c then [] :: locSepSkip rest
    else
      match locSepGo rest with
      | [] => [[c]]
      | p :: ps => (c :: p) :: ps
end

def locSepParts (cand : String) : List String :=
  ((locSepGo cand.toList).map (fun p => pyStrip p.asString)).filter (· ≠ "")

/-- `_folder_name_loc_fallback`: strip a leading `dddd-dd-dd` (or with
underscores) date token, split the remainder on the flexible separators
and assign two or three pieces positionally.
Returns `(venue, city, country, hint)`. -/
def folder_name_loc_fallback (folder_name : String) : String × String × String × String :=
  let cand :=
    match folderDateRest none folder_name.toList with
    | some g => pyStrip g
    | none => folder_name
  let parts := locSepParts cand
  if parts.length ≥ 3 then
    (parts.getD 0 "", parts.getD 1 "", parts.getD 2 "", "loc:folder")
  else if parts.length = 2 then
    (parts.getD 0 "", parts.getD 1 "", "", "loc:folder")
  else ("", "", "", "")

/-- The stripped non-blank lines of the notes, with inner whitespace runs
collapsed. -/
def locLines (notes : String) : List String :=
  (((pySplitlines notes).map pyStrip).filter (· ≠ "")).map collapseWs

/-- Tier 1: a comma-separated `Venue, City[, Region], Country` line.
Returns `(venue, city, country)`. -/
def locTier1 : List String → Option (String × String × String)
  | [] => none
  | ln :: rest =>
    let parts := commaSplitParts ln
    if parts.length ≥ 2 ∧ countryOrRegion (parts.getLastD "") then
      let last := parts.getLastD ""
      let country := countryValue last
      if parts.length ≥ 3 then
        let mid := parts.getD (parts.length - 2) ""
        let cityCountry :=
          match trailingUpperSplit mid with
          | some (g1, g2) =>
            if (regionLookup (pyUpper g2)).isSome then
              -- the `if not country` branch of the source is dead: a
              -- qualifying last part always yields a non-empty country
              (g1, if country = "" then (regionLookup (pyUpper g2)).getD "" else country)
            else (mid, country)
          | none => (mid, country)
        some (String.intercalate ", " (parts.dropLast.dropLast), cityCountry.1, cityCountry.2)
      else some ("", parts.getD 0 "", country)
    else locTier1 rest

/-- Tier 2: three consecutive lines `Venue` / `City[- or , Region]` /
`Country`.  Returns `(venue, city, country)`. -/
def locTier2 : List String → Option (String × String × String)
  | a :: b :: c :: rest =>
    if countryOrRegion c then
      let bc :=
        match trailingRegionSplit [',', '-'] b with
        | some (g1, g2) =>
          if (regionLookup (pyUpper g2)).isSome then
            (g1, (regionLookup (pyUpper g2)).getD "")
          else (b, "")
        | none => (b, "")
      let country := countryValue c
      -- `if b_country and not country` is dead code for the same reason
      let country := if bc.2 ≠ "" ∧ country = "" then bc.2 else country
      some (a, bc.1, country)
    else locTier2 (b :: c :: rest)
  | _ => none

/-- Tier 3: an `Event – Venue` line followed by a `City[, Region or
Country]` line.  Returns `(venue, city, country, festival)`. -/
def locTier3 : List String → Option (String × String × String × String)
  | l1 :: l2 :: rest =>
    let here : Option (String × String × String × String) :=
      match eventLineSplit l1 with
      | some (ev, ven) =>
        let viaRegion : Option (String × String × String × String) :=
          match trailingRegionSplit [',', '–', '-'] l2 with
          | some (g1, g2) =>
            if (regionLookup (pyUpper g2)).isSome then
              some (ven, g1, (regionLookup (pyUpper g2)).getD "", ev)
            else none
          | none => none
        match viaRegion with
        | some r => some r
        | none =>
          let parts := commaSplitParts l2
          if parts.length = 2 ∧ countryOrRegion (parts.getD 1 "") then
            some (ven, parts.getD 0 "", countryValue (parts.getD 1 ""), ev)
          else none
      | none => none
    match here with
    | some r => some r
    | none => locTier3 (l2 :: rest)
  | _ => none

/-- Tier 4: a lone `City - Region` or `City, Country` line.
Returns `(city, country, hint)`. -/
def locTier4 : List String → Option (String × String × String)
  | [] => none
  | ln :: rest =>
    let viaRegion : Option (String × String × String) :=
      match trailingRegionSplit [',', '-'] ln with
      | some (g1, g2) =>
        if (regionLookup (pyUpper g2)).isSome then
          some (g1, (regionLookup (pyUpper g2)).getD "", "loc:cityregion")
        else none
      | none => none
    match viaRegion with
    | some r => some r
    | none =>
      let parts := commaSplitParts ln
      if parts.length = 2 ∧ countryOrRegion (parts.getD 1 "") then
        some (parts.getD 0 "", countryValue (parts.getD 1 ""), "loc:citycountry")
      else locTier4 rest

/-- Tier 6: the festival-keyword regex, searched case-insensitively with
word boundaries; the matched slice keeps its original casing. -/
def festivalSearch (prev : Option Char) (cs : List Char) : Option String :=
  let here : Option String :=
    if boundaryBefore prev then
      ["Festival", "Rockpalast", "Lollapalooza", "Glastonbury", "Reading", "Leeds",
       "Bonnaroo", "Primavera", "Big Day Out", "Splendour in the Grass"].findSome?
        fun kw =>
          let pat := kw.toList.map lowerChar
          if (cs.take pat.length).map lowerChar = pat ∧
              boundaryAfter (cs.drop pat.length) then
            some (cs.take pat.length).asString
          else none
    else none
  match here with
  | some r => some r
  | none =>
    match cs with
    | [] => none
    | c :: rest => festivalSearch (some c) rest

/-- `parse_location`: the six-tier cascade.  Every successful tier returns
immediately; the festival fallback runs only when everything else
produced nothing.  Returns `(venue, city, country, festival, hint)`. -/
def parse_location (notes folder_name : String) : String × String × String × String × String :=
  if notes = "" then
    let f := folder_name_loc_fallback folder_name
    (f.1, f.2.1, f.2.2.1, "", f.2.2.2)
  else
    let lines := locLines notes
    match locTier1 lines with
    | some (v, c, k) => (v, c, k, "", "loc:comma")
    | none =>
      match locTier2 lines with
      | some (v, c, k) => (v, c, k, "", "loc:stack")
      | none =>
        match locTier3 lines with
        | some (v, c, k, fest) => (v, c, k, fest, "loc:eventline")
        | none =>
          match locTier4 lines with
          | some (c, k, h) => ("", c, k, "", h)
          | none =>
            let f := folder_name_loc_fallback folder_name
            if f.1 ≠ "" ∨ f.2.1 ≠ "" ∨ f.2.2.1 ≠ "" then
              (f.1, f.2.1, f.2.2.1, "", f.2.2.2)
            else
              match festivalSearch none notes.toList with
              | some fest => ("", "", "", fest, "")
              | none => ("", "", "", "", "")

/-! ## Concrete scan configurations and trees used by the witnesses and
counterexamples -/

/-- No checksums, no exceptions. -/
def scanPlain : ScanCfg := ⟨false, fun _ => false⟩

/-- Checksums enabled, no exceptions. -/
def scanChecksum : ScanCfg := ⟨true, fun _ => false⟩

/-- Exceptions exactly on `/r/bad`. -/
def scanRaiseBad : ScanCfg := ⟨false, fun p => p == "/r/bad"⟩

/-- A container with one loose video file and two child show folders. -/
def looseRoot : FSEntry :=
  .dir "r" [.file "loose.mp4" [1], .dir "a" [.file "x.mp4" [1]], .dir "b" [.file "y.mp4" [2]]]

/-- A directory with a qualifying disc structure and two further child
show folders. -/
def vtsContainer : FSEntry :=
  .dir "Show"
    [.dir "VIDEO_TS" [.file "VTS_01_1.VOB" [0]],
     .dir "c1" [.file "x.mp4" [0]],
     .dir "c2" [.file "y.mp4" [0]]]

/-- A show folder consisting of a single video file. -/
def singleShowRoot : FSEntry := .dir "r" [.file "x.mp4" [1]]

/-- Three sibling show folders with byte-identical single-file content. -/
def tripleDupRoot : FSEntry :=
  .dir "r"
    [.dir "a" [.file "x.mp4" [1]],
     .dir "b" [.file "y.mp4" [1]],
     .dir "c" [.file "z.mp4" [1]]]

/-- The rows of a checksum-enabled scan over the three duplicates. -/
def c4out : List ScanRow := scan_rows scanChecksum [("/r", tripleDupRoot)]

/-- The checksum/duplicate bookkeeping invariant of a scan state: the
checksum map sends each recorded checksum to the first emitted row
carrying it; that first row has an empty duplicate reference; and every
emitted row with a non-empty checksum either is the first row with that
checksum or carries the first row's identifier in `DuplicateOf`. -/
structure ChecksumInv (st : ScanState) : Prop where
  canon : ∀ c idv, lookupStr st.checksum_to_showid c = some idv →
    ∃ f, firstWithChecksum c st.rows = some f ∧ f.show_id = idv ∧
      f.duplicate_of = "" ∧ c ≠ ""
  complete : ∀ r ∈ st.rows, r.checksum_sha1 ≠ "" →
    (lookupStr st.checksum_to_showid r.checksum_sha1).isSome = true
  linked : ∀ r ∈ st.rows, r.checksum_sha1 ≠ "" →
    ∃ f, firstWithChecksum r.checksum_sha1 st.rows = some f ∧ f.duplicate_of = "" ∧
      (r = f ∨ r.duplicate_of = f.show_id)

/-! ## C1 — loose-file promotion -/

/-- C1: the spec (and the source's own comment, line 929–930) promises one
synthetic row per loose video file in a non-show container directory.  The
call implementing it, `build_row_for_loose_file`, is defined nowhere in
the repository, so it raises `NameError`, the bare `except: pass` swallows
it, and no row is emitted: scanning a container with `loose.mp4` plus two
child shows yields rows for the two child shows only. -/
theorem C1_loose_file_dropped :
    is_show_folder looseRoot = false ∧
    hasVideoExt "loose.mp4" = true ∧
    (scan_rows scanPlain [("/r", looseRoot)]).map ScanRow.folder_path = ["/r/a", "/r/b"] :=
  ⟨by decide, by decide, by decide⟩

/-! ## C2 — multi-show containers versus disc structures -/

/-- C2 (counterexample): a directory with two independently-qualifying
child directories (besides its `VIDEO_TS`) is still classified as a show,
because `is_show_folder` tests `_video_ts_present` before counting child
shows — contradicting the claim that such a parent is never a show. -/
theorem C2_counterexample :
    2 ≤ countChildShowDirs vtsContainer ∧ is_show_folder vtsContainer = true :=
  ⟨by decide, by decide⟩

/-- C2 (amended): the two-or-more-child-shows rule makes the parent a
non-show only when the parent has no qualifying disc structure of its own;
a directory that directly contains a `VIDEO_TS` folder with a `.VOB` file
is always classified as a show. -/
theorem C2_amended :
    (∀ e : FSEntry, video_ts_present e = false → 2 ≤ countChildShowDirs e →
      is_show_folder e = false) ∧
    (∀ e : FSEntry, video_ts_present e = true → is_show_folder e = true) := by
  constructor
  · intro e hv h2
    simp [is_show_folder, hv, h2]
  · intro e hv
    simp [is_show_folder, hv]

/-- C2 (amended, witness): both parts at concrete directories. -/
theorem C2_amended_witness :
    is_show_folder (.dir "Box" [.dir "c1" [.file "x.mp4" [0]], .dir "c2" [.file "y.mp4" [0]]]) = false ∧
    is_show_folder vtsContainer = true :=
  ⟨C2_amended.1 _ (by decide) (by decide), C2_amended.2 _ (by decide)⟩

/-! ## C3 — identifier deduplication -/

/-- C3 (counterexample): scanning the same path twice (here, the same root
given twice) produces the same identifier twice and *two* rows carrying
it — the `show_id in seen_ids` test only clears `dirnames`, it does not
skip the row. -/
theorem C3_counterexample :
    ((scan_rows scanPlain [("/r", singleShowRoot), ("/r", singleShowRoot)]).map
      ScanRow.show_id).count (normalize_show_id "/r") = 2 := by decide

/-- C3 (amended): when a show directory whose identifier is already in
`seen_ids` is reached again, its children are not descended into, but a
row with that identifier is emitted again: the walk step appends exactly
one more row (and none for any nested show), so rows are not deduplicated
by identifier. -/
theorem C3_amended (cfg : ScanCfg) (st : ScanState) (path n : String) (cs : List FSEntry)
    (hr : cfg.raises path = false) (hx : excludedName n = false)
    (hs : is_show_folder (.dir n cs) = true)
    (hseen : normalize_show_id path ∈ st.seen_ids) :
    (walkEntry cfg st path (.dir n cs)).rows.map ScanRow.show_id =
      st.rows.map ScanRow.show_id ++ [normalize_show_id path] := by
  simp only [walkEntry, hr, hx, hs]
  simp only [Bool.false_eq_true, if_false, if_true, showStep]
  split
  · split
    · split <;> simp
    · simp
  · simp

/-- C3 (amended, witness): a repeated identifier at a concrete walk step
still appends its row. -/
theorem C3_amended_witness :
    (walkEntry scanPlain ⟨[], [normalize_show_id "/r/s"], []⟩ "/r/s"
      (.dir "s" [.file "x.mp4" [1]])).rows.map ScanRow.show_id = [normalize_show_id "/r/s"] :=
  C3_amended scanPlain ⟨[], [normalize_show_id "/r/s"], []⟩ "/r/s" "s" [.file "x.mp4" [1]]
    rfl (by decide) (by decide) (List.mem_singleton.mpr rfl)

/-! ## C5 — date disambiguation -/

/-- C5: `guess_date` on text containing `25-12-2023` (first number greater
than 12, hence the day) returns `2023-12-25`; on `03-04-2023` it returns
the month-first reading `2023-03-04`; and whenever the ambiguous numeric
pattern captures a year value below 100 (in particular every two-digit
year), the year of the assembled date is 2000 plus that value. -/
theorem C5_date_disambiguation :
    guess_date "filmed 25-12-2023 in hall" = "2023-12-25" ∧
    guess_date "notes 03-04-2023 end" = "2023-03-04" ∧
    ∀ a b c : Nat, c < 100 → (ambiguousTriple a b c).1 = 2000 + c := by
  refine ⟨by decide, by decide, fun a b c h => ?_⟩
  unfold ambiguousTriple
  rw [if_pos h]
  split <;> exact Nat.add_comm c 2000

/-- C5 (witness): the two-digit-year part at `7/8/99`. -/
theorem C5_witness :
    guess_date "filmed 25-12-2023 in hall" = "2023-12-25" ∧ (ambiguousTriple 7 8 99).1 = 2000 + 99 :=
  ⟨C5_date_disambiguation.1, C5_date_disambiguation.2.2 7 8 99 (by decide)⟩

/-! ## C10 — no calendar validation -/

/-- C10: the ambiguous numeric pattern performs no calendar validation:
on `13-25-2023` both leading numbers exceed 12, the first is taken as the
day, and `guess_date` returns `2023-25-13`, whose month component 25
exceeds 12. -/
theorem C10_invalid_month :
    guess_date "taped 13-25-2023 x" = "2023-25-13" ∧
    (ambiguousTriple 13 25 2023).2.1 = 25 ∧ 12 < 25 :=
  ⟨by decide, by decide, by decide⟩

/-! ## C6 — location cascade precedence -/

/-- C6: if no line qualifies for the comma tier but a three-line
venue/city/country stack does, `parse_location` returns the stack-derived
triple with the `loc:stack` hint and an empty festival field — even when
the notes contain a festival keyword, the tier-6 fallback (and every later
tier) is never consulted, so the stack's non-empty country stands. -/
theorem C6_stack_precedence (notes folder_name v c k : String)
    (hne : notes ≠ "")
    (h1 : locTier1 (locLines notes) = none)
    (h2 : locTier2 (locLines notes) = some (v, c, k))
    (hfest : festivalSearch none notes.toList ≠ none) :
    parse_location notes folder_name = (v, c, k, "", "loc:stack") := by
  simp [parse_location, hne, h1, h2]

/-- C6 (witness): notes with a venue/city/country stack and the keyword
`Festival` in a later line. -/
theorem C6_witness :
    parse_location "The Forum\nMelbourne\nAustralia\nGreat Festival vibes" "x" =
      ("The Forum", "Melbourne", "Australia", "", "loc:stack") :=
  C6_stack_precedence _ _ _ _ _ (by decide) (by decide) (by decide) (by decide)

/-! ## C9 — per-folder exception handling -/

/-- C9: when the per-folder oracle reports an unhandled exception on a
directory, the walk step appends exactly the minimal stub row — which
carries the folder's path-derived identifier, its folder name and the
"unhandled error" warning — does not descend into the directory, and
continues with the remaining sibling directories; no folder aborts the
run. -/
theorem C9_exception_stub_row (cfg : ScanCfg) (st : ScanState) (parent n : String)
    (cs rest : List FSEntry)
    (h : cfg.raises (parent ++ "/" ++ n) = true) :
    walkSubdirs cfg st parent (FSEntry.dir n cs :: rest) =
      walkSubdirs cfg { st with rows := st.rows ++ [stubRow (parent ++ "/" ++ n) n] }
        parent rest
    ∧ (stubRow (parent ++ "/" ++ n) n).show_id = normalize_show_id (parent ++ "/" ++ n)
    ∧ (stubRow (parent ++ "/" ++ n) n).folder_name = n
    ∧ (stubRow (parent ++ "/" ++ n) n).extraction_warnings =
        "Unhandled error while scanning this folder" := by
  refine ⟨?_, rfl, rfl, rfl⟩
  rw [walkSubdirs]
  rw [walkEntry]
  rw [if_pos h]

/-- C9 (witness): a raising directory followed by a healthy sibling show. -/
theorem C9_witness :
    walkSubdirs scanRaiseBad ⟨[], [], []⟩ "/r"
      [FSEntry.dir "bad" [], FSEntry.dir "good" [FSEntry.file "x.mp4" [1]]] =
      walkSubdirs scanRaiseBad
        { (⟨[], [], []⟩ : ScanState) with rows := [] ++ [stubRow ("/r" ++ "/" ++ "bad") "bad"] }
        "/r" [FSEntry.dir "good" [FSEntry.file "x.mp4" [1]]]
    ∧ (stubRow ("/r" ++ "/" ++ "bad") "bad").show_id = normalize_show_id ("/r" ++ "/" ++ "bad")
    ∧ (stubRow ("/r" ++ "/" ++ "bad") "bad").folder_name = "bad"
    ∧ (stubRow ("/r" ++ "/" ++ "bad") "bad").extraction_warnings =
        "Unhandled error while scanning this folder" :=
  C9_exception_stub_row scanRaiseBad ⟨[], [], []⟩ "/r" "bad" []
    [FSEntry.dir "good" [FSEntry.file "x.mp4" [1]]] (by decide)

/-! ## C7 — setlist deduplication, order, cap -/

/-- The dedup loop yields pairwise case-insensitively distinct titles,
none of which lower-cases into the already-seen set. -/
theorem setlistDedup_props : ∀ (cands seen : List String),
    List.Pairwise (fun a b => pyLower a ≠ pyLower b) (setlistDedup cands seen) ∧
    (∀ t ∈ setlistDedup cands seen, pyLower t ∉ seen)
  | [], seen => by simp [setlistDedup]
  | ln :: rest, seen => by
    simp only [setlistDedup]
    cases hc : clean_song_title ln with
    | none => exact setlistDedup_props rest seen
    | some t =>
      dsimp only
      by_cases hm : pyLower t ∈ seen
      · rw [if_pos hm]
        exact setlistDedup_props rest seen
      · rw [if_neg hm]
        obtain ⟨ihp, ihs⟩ := setlistDedup_props rest (pyLower t :: seen)
        refine ⟨List.Pairwise.cons ?_ ihp, ?_⟩
        · intro b hb heq
          exact ihs b hb (heq ▸ List.mem_cons_self _ _)
        · intro x hx
          rcases List.mem_cons.mp hx with rfl | hx'
          · exact hm
          · exact fun hxs => ihs x hx' (List.mem_cons_of_mem _ hxs)

/-- The dedup loop's output is a sublist of the cleaned candidate stream,
so first-occurrence order is preserved. -/
theorem setlistDedup_sublist : ∀ (cands seen : List String),
    List.Sublist (setlistDedup cands seen) (cands.filterMap clean_song_title)
  | [], _ => by simp [setlistDedup]
  | ln :: rest, seen => by
    simp only [setlistDedup, List.filterMap_cons]
    cases hc : clean_song_title ln with
    | none => exact setlistDedup_sublist rest seen
    | some t =>
      dsimp only
      by_cases hm : pyLower t ∈ seen
      · rw [if_pos hm]
        exact (setlistDedup_sublist rest seen).cons _
      · rw [if_neg hm]
        exact (setlistDedup_sublist rest _).cons₂ _

/-- C7: for every notes blob, the emitted setlist entries are pairwise
distinct case-insensitively, appear in first-occurrence order (a sublist
of the cleaned candidate line stream), and number at most 200; in
particular the lines `Yellow` and `yellow` produce the single entry
`Yellow`. -/
theorem C7_setlist_dedup :
    (∀ notes : String,
      List.Pairwise (fun a b => pyLower a ≠ pyLower b) ((setlist_titles notes).take 200) ∧
      List.Sublist ((setlist_titles notes).take 200)
        ((setlist_candidates notes).filterMap clean_song_title) ∧
      ((setlist_titles notes).take 200).length ≤ 200) ∧
    extract_setlist "Yellow\nyellow" = "Yellow" := by
  refine ⟨fun notes => ⟨?_, ?_, ?_⟩, by decide⟩
  · exact (setlistDedup_props _ []).1.sublist (List.take_sublist _ _)
  · exact (List.take_sublist _ _).trans (setlistDedup_sublist _ [])
  · exact List.length_take_le _ _

/-! ## C8 — multi-segment merge semantics -/

/-- Decimal digit characters evaluate back to their digit. -/
theorem digitChar_spec (d : Nat) (h : d < 10) :
    (Char.ofNat (d + 48)).toNat = d + 48 ∧ isAsciiDigit (Char.ofNat (d + 48)) = true := by
  interval_cases d <;> exact ⟨rfl, rfl⟩

theorem natOfDigits_append (xs : List Char) (c : Char) :
    natOfDigits (xs ++ [c]) = natOfDigits xs * 10 + (c.toNat - 48) := by
  simp [natOfDigits, List.foldl_append]

/-- With enough fuel, the rendered digits are all decimal and evaluate
back to the number. -/
theorem natDigitsFuel_correct : ∀ (fuel n : Nat), n < 10 ^ (fuel + 1) →
    natOfDigits (natDigitsFuel fuel n) = n ∧
    (natDigitsFuel fuel n).all isAsciiDigit = true ∧ natDigitsFuel fuel n ≠ []
  | 0, n, h => by
    have hn : n % 10 = n := Nat.mod_eq_of_lt (by simpa using h)
    obtain ⟨hv, hd⟩ := digitChar_spec (n % 10) (Nat.mod_lt _ (by omega))
    refine ⟨?_, by simp [natDigitsFuel, hd], by simp [natDigitsFuel]⟩
    simp [natDigitsFuel, natOfDigits, hv]
    omega
  | fuel + 1, n, h => by
    by_cases h10 : n < 10
    · obtain ⟨hv, hd⟩ := digitChar_spec n h10
      refine ⟨?_, by simp [natDigitsFuel, h10, hd], by simp [natDigitsFuel, h10]⟩
      simp [natDigitsFuel, h10, natOfDigits, hv]
    · have hdiv : n / 10 < 10 ^ (fuel + 1) := by
        rw [Nat.div_lt_iff_lt_mul (by omega)]
        calc n < 10 ^ (fuel + 2) := h
        _ = 10 ^ (fuel + 1) * 10 := by ring
      obtain ⟨ihv, ihall, ihne⟩ := natDigitsFuel_correct fuel (n / 10) hdiv
      obtain ⟨hv, hd⟩ := digitChar_spec (n % 10) (Nat.mod_lt _ (by omega))
      refine ⟨?_, ?_, by simp [natDigitsFuel, h10]⟩
      · rw [show natDigitsFuel (fuel + 1) n =
            natDigitsFuel fuel (n / 10) ++ [Char.ofNat (n % 10 + 48)] by
              simp [natDigitsFuel, h10]]
        rw [natOfDigits_append, ihv, hv]
        omega
      · simp [natDigitsFuel, h10, List.all_append, ihall, hd]

/-- Round trip: `int(str(n)) == n` in the model. -/
theorem pyIntOpt_natToString (n : Nat) : pyIntOpt (natToString n) = some n := by
  have hlt : n < 10 ^ (n + 1) :=
    lt_of_lt_of_le (Nat.lt_pow_self (by omega) n)
      (Nat.pow_le_pow_right (by omega) (Nat.le_succ n))
  obtain ⟨hv, hall, hne⟩ := natDigitsFuel_correct n n hlt
  have htl : (natDigitsFuel n n).asString.toList = natDigitsFuel n n := rfl
  have hdata : (natDigitsFuel n n).asString.data = natDigitsFuel n n := rfl
  have hne' : (natDigitsFuel n n).asString ≠ "" := by
    intro hcontra
    apply hne
    have : (natDigitsFuel n n).asString.toList = ("" : String).toList := by rw [hcontra]
    simpa [htl] using this
  simp only [List.all_eq_true] at hall
  simp [pyIntOpt, natToString, htl, hdata, hne', hv]
  exact hall

/-- `durContribution` inverts the model's `str`. -/
theorem durContribution_natToString (n : Nat) : durContribution (natToString n) = n := by
  have hne : natToString n ≠ "" := by
    have := pyIntOpt_natToString n
    intro hcontra
    rw [hcontra] at this
    simp [pyIntOpt] at this
  simp [durContribution, hne, pyIntOpt_natToString]

theorem firstNonEmptyStr_cons (s : String) (l : List String) :
    firstNonEmptyStr (s :: l) = if s ≠ "" then s else firstNonEmptyStr l := by
  by_cases h : s = "" <;> simp [firstNonEmptyStr, List.find?_cons, h]

/-- The per-field behaviour of the merge fold: an already non-empty
accumulator field survives, otherwise the first non-empty per-segment
value is taken (in order). -/
theorem foldMerge_field (g : MediaInfo → String)
    (hg : ∀ acc seg, g (fillInfo acc seg) =
      if g acc = "" ∧ g seg ≠ "" then g seg else g acc) :
    ∀ (infos : List MediaInfo) (acc : MediaInfo) (d : Nat),
      g ((infos.foldl mergeStep (acc, d)).1) =
        if g acc = "" then firstNonEmptyStr (infos.map g) else g acc
  | [], acc, d => by
    by_cases h : g acc = "" <;> simp [firstNonEmptyStr, h]
  | seg :: rest, acc, d => by
    simp only [List.foldl_cons, List.map_cons]
    have hrec := foldMerge_field g hg rest (fillInfo acc seg) (d + durContribution seg.duration_sec)
    have hstep : rest.foldl mergeStep (mergeStep (acc, d) seg) =
        rest.foldl mergeStep (fillInfo acc seg, d + durContribution seg.duration_sec) := rfl
    rw [hstep, hrec, hg acc seg, firstNonEmptyStr_cons]
    by_cases ha : g acc = ""
    · by_cases hs : g seg = "" <;> simp [ha, hs]
    · simp [ha]

/-- The summed duration of the merge fold. -/
theorem foldMerge_dur : ∀ (infos : List MediaInfo) (acc : MediaInfo) (d : Nat),
    (infos.foldl mergeStep (acc, d)).2 =
      d + (infos.map (fun i => durContribution i.duration_sec)).sum
  | [], acc, d => by simp
  | seg :: rest, acc, d => by
    simp only [List.foldl_cons, List.map_cons, List.sum_cons]
    rw [show rest.foldl mergeStep (mergeStep (acc, d) seg) =
        rest.foldl mergeStep (fillInfo acc seg, d + durContribution seg.duration_sec) from rfl]
    rw [foldMerge_dur rest _ _]
    omega

/-- The fold never touches the accumulator's `duration_sec` field. -/
theorem foldMerge_durfield : ∀ (infos : List MediaInfo) (acc : MediaInfo) (d : Nat),
    ((infos.foldl mergeStep (acc, d)).1).duration_sec = acc.duration_sec
  | [], acc, d => rfl
  | seg :: rest, acc, d => by
    simp only [List.foldl_cons]
    rw [show rest.foldl mergeStep (mergeStep (acc, d) seg) =
        rest.foldl mergeStep (fillInfo acc seg, d + durContribution seg.duration_sec) from rfl]
    exact foldMerge_durfield rest _ _

theorem mem_insertBySeg (x a : FSEntry) : ∀ l, a ∈ insertBySeg x l ↔ a = x ∨ a ∈ l
  | [] => by simp [insertBySeg]
  | y :: ys => by
    simp only [insertBySeg]
    split
    · simp only [List.mem_cons, mem_insertBySeg x a ys]
      try tauto
    · simp only [List.mem_cons]
      try tauto

/-- The stable insert keeps the list sorted by segment index. -/
theorem insertBySeg_sorted (x : FSEntry) :
    ∀ l, List.Pairwise (fun a b => vobSegNum a ≤ vobSegNum b) l →
      List.Pairwise (fun a b => vobSegNum a ≤ vobSegNum b) (insertBySeg x l)
  | [], _ => by simp [insertBySeg]
  | y :: ys, hp => by
    obtain ⟨hy, hys⟩ := List.pairwise_cons.mp hp
    simp only [insertBySeg]
    split
    · next h =>
      refine List.pairwise_cons.mpr ⟨?_, insertBySeg_sorted x ys hys⟩
      intro b hb
      rcases (mem_insertBySeg x b ys).mp hb with rfl | hb'
      · exact h
      · exact hy b hb'
    · next h =>
      have hxy : vobSegNum x ≤ vobSegNum y := Nat.le_of_lt (Nat.lt_of_not_le h)
      refine List.pairwise_cons.mpr ⟨?_, hp⟩
      intro b hb
      rcases List.mem_cons.mp hb with rfl | hb'
      · exact hxy
      · exact le_trans hxy (hy b hb')

theorem sortBySeg_sorted :
    ∀ l, List.Pairwise (fun a b => vobSegNum a ≤ vobSegNum b) (sortBySeg l)
  | [] => by simp [sortBySeg]
  | x :: xs => insertBySeg_sorted x _ (sortBySeg_sorted xs)

/-- Any property closed under the selection fold holds of the selected
group. -/
theorem pickFold_prop (P : List FSEntry → Prop) :
    ∀ (gs : List (String × List FSEntry)) (acc : Option (List FSEntry × Nat)),
      (∀ g t, acc = some (g, t) → P g) → (∀ kg ∈ gs, P kg.2) →
      ∀ g t, gs.foldl pickStep acc = some (g, t) → P g
  | [], _, hacc, _, g, t, hfold => hacc g t hfold
  | kg :: rest, acc, hacc, hgs, g, t, hfold => by
    refine pickFold_prop P rest (pickStep acc kg) ?_
      (fun kg' h => hgs kg' (List.mem_cons_of_mem _ h)) g t hfold
    intro g' t' hstep
    unfold pickStep at hstep
    match acc, hstep with
    | none, hstep =>
      cases hstep
      exact hgs kg (List.mem_cons_self _ _)
    | some (g0, t0), hstep =>
      have hP0 : P g0 := hacc g0 t0 rfl
      dsimp only at hstep
      split at hstep
      · cases hstep
        exact hgs kg (List.mem_cons_self _ _)
      · cases hstep
        exact hP0

theorem pickBestGroup_prop (P : List FSEntry → Prop) (hnil : P [])
    (gs : List (String × List FSEntry)) (h : ∀ kg ∈ gs, P kg.2) :
    P (pickBestGroup gs) := by
  unfold pickBestGroup
  match hm : gs.foldl pickStep none with
  | some (g, t) => exact pickFold_prop P gs none (by intro g t hc; cases hc) h g t hm
  | none => exact hnil

/-- C8: for a multi-segment representative set, every merged field is the
first non-empty per-segment value in segment order, except the duration,
whose numeric value is the sum of the per-segment durations; and the
segment order of the chosen disc-structure group is ascending in the
numeric segment index. -/
theorem C8_merge_semantics :
    (∀ infos : List MediaInfo,
      (dvdMergeInfos infos).video_codec = firstNonEmptyStr (infos.map MediaInfo.video_codec) ∧
      (dvdMergeInfos infos).width = firstNonEmptyStr (infos.map MediaInfo.width) ∧
      (dvdMergeInfos infos).height = firstNonEmptyStr (infos.map MediaInfo.height) ∧
      (dvdMergeInfos infos).dar = firstNonEmptyStr (infos.map MediaInfo.dar) ∧
      (dvdMergeInfos infos).sar = firstNonEmptyStr (infos.map MediaInfo.sar) ∧
      (dvdMergeInfos infos).fps = firstNonEmptyStr (infos.map MediaInfo.fps) ∧
      (dvdMergeInfos infos).audio_codec = firstNonEmptyStr (infos.map MediaInfo.audio_codec) ∧
      (dvdMergeInfos infos).audio_channels = firstNonEmptyStr (infos.map MediaInfo.audio_channels) ∧
      (dvdMergeInfos infos).audio_sample_rate = firstNonEmptyStr (infos.map MediaInfo.audio_sample_rate) ∧
      durContribution (dvdMergeInfos infos).duration_sec =
        (infos.map (fun i => durContribution i.duration_sec)).sum) ∧
    (∀ e : FSEntry,
      List.Pairwise (fun a b => vobSegNum a ≤ vobSegNum b) (dvd_group_segments e)) := by
  constructor
  · intro infos
    have hdur := foldMerge_dur infos emptyMediaInfo 0
    have hdurf := foldMerge_durfield infos emptyMediaInfo 0
    refine ⟨?_, ?_, ?_, ?_, ?_, ?_, ?_, ?_, ?_, ?_⟩
    case _ =>
      have h := foldMerge_field MediaInfo.video_codec (fun _ _ => rfl) infos emptyMediaInfo 0
      simp only [dvdMergeInfos]
      split <;> simpa [emptyMediaInfo] using h
    case _ =>
      have h := foldMerge_field MediaInfo.width (fun _ _ => rfl) infos emptyMediaInfo 0
      simp only [dvdMergeInfos]
      split <;> simpa [emptyMediaInfo] using h
    case _ =>
      have h := foldMerge_field MediaInfo.height (fun _ _ => rfl) infos emptyMediaInfo 0
      simp only [dvdMergeInfos]
      split <;> simpa [emptyMediaInfo] using h
    case _ =>
      have h := foldMerge_field MediaInfo.dar (fun _ _ => rfl) infos emptyMediaInfo 0
      simp only [dvdMergeInfos]
      split <;> simpa [emptyMediaInfo] using h
    case _ =>
      have h := foldMerge_field MediaInfo.sar (fun _ _ => rfl) infos emptyMediaInfo 0
      simp only [dvdMergeInfos]
      split <;> simpa [emptyMediaInfo] using h
    case _ =>
      have h := foldMerge_field MediaInfo.fps (fun _ _ => rfl) infos emptyMediaInfo 0
      simp only [dvdMergeInfos]
      split <;> simpa [emptyMediaInfo] using h
    case _ =>
      have h := foldMerge_field MediaInfo.audio_codec (fun _ _ => rfl) infos emptyMediaInfo 0
      simp only [dvdMergeInfos]
      split <;> simpa [emptyMediaInfo] using h
    case _ =>
      have h := foldMerge_field MediaInfo.audio_channels (fun _ _ => rfl) infos emptyMediaInfo 0
      simp only [dvdMergeInfos]
      split <;> simpa [emptyMediaInfo] using h
    case _ =>
      have h := foldMerge_field MediaInfo.audio_sample_rate (fun _ _ => rfl) infos emptyMediaInfo 0
      simp only [dvdMergeInfos]
      split <;> simpa [emptyMediaInfo] using h
    case _ =>
      simp only [dvdMergeInfos]
      split
      · next hne =>
        simp [durContribution_natToString]
        omega
      · next hz =>
        rw [hdurf]
        push_neg at hz
        rw [hz] at hdur
        have h0 : durContribution emptyMediaInfo.duration_sec = 0 := rfl
        rw [h0]
        omega
  · intro e
    rw [dvd_group_segments]
    cases hf : (rglobOf e).find? (fun p => p.isDir && pyLower p.nameOf = "video_ts") with
    | none => exact List.Pairwise.nil
    | some vts =>
      dsimp only
      refine pickBestGroup_prop _ List.Pairwise.nil _ ?_
      intro kg hkg
      obtain ⟨kg0, _, rfl⟩ := List.mem_map.mp hkg
      exact sortBySeg_sorted _

/-! ## C4 — checksums and duplicate linking -/

theorem asString_ne_empty {l : List Char} (h : l ≠ []) : l.asString ≠ "" := by
  intro hc
  apply h
  exact congrArg String.data hc

/-- A SHA-1 hex digest is never the empty string (the source's `""` result
arises only from I/O failures, which the filesystem model excludes). -/
theorem sha1Hex_ne_empty (msg : List Nat) : sha1Hex msg ≠ "" := by
  unfold sha1Hex sha1HexChars
  rcases h : sha1Words msg with ⟨a, b, c, d, e⟩
  apply asString_ne_empty
  simp [word32HexChars]

theorem find?_append_some {α : Type} {p : α → Bool} {l₁ l₂ : List α} {x : α}
    (h : l₁.find? p = some x) : (l₁ ++ l₂).find? p = some x := by
  simp [List.find?_append, h]

theorem find?_append_none {α : Type} {p : α → Bool} {l₁ l₂ : List α}
    (h : l₁.find? p = none) : (l₁ ++ l₂).find? p = l₂.find? p := by
  simp [List.find?_append, h]

theorem lookupStr_cons (k v c : String) (m : List (String × String)) :
    lookupStr ((k, v) :: m) c = if k = c then some v else lookupStr m c := by
  by_cases h : k = c <;> simp [lookupStr, List.find?_cons, h]

/-- Appending a row without a checksum (a stub row, or a row of a scan
without checksums) preserves the invariant, for any new `seen_ids`. -/
theorem inv_append_nochk (st : ScanState) (r : ScanRow) (seen' : List String)
    (hrc : r.checksum_sha1 = "") (h : ChecksumInv st) :
    ChecksumInv ⟨st.rows ++ [r], seen', st.checksum_to_showid⟩ := by
  refine ⟨?_, ?_, ?_⟩
  · intro c idv hl
    obtain ⟨f, hf, hfid, hfd, hcne⟩ := h.canon c idv hl
    exact ⟨f, find?_append_some hf, hfid, hfd, hcne⟩
  · intro r' hr' hne
    rcases List.mem_append.mp hr' with hin | hr1
    · exact h.complete r' hin hne
    · rw [List.mem_singleton.mp hr1] at hne
      exact absurd hrc hne
  · intro r' hr' hne
    rcases List.mem_append.mp hr' with hin | hr1
    · obtain ⟨f, hf, hfd, hor⟩ := h.linked r' hin hne
      exact ⟨f, find?_append_some hf, hfd, hor⟩
    · rw [List.mem_singleton.mp hr1] at hne
      exact absurd hrc hne

/-- A row appended behind rows none of which carry its checksum is the
first row with that checksum. -/
theorem firstWith_append_self (rows : List ScanRow) (r : ScanRow) (c : String)
    (hc : r.checksum_sha1 = c) (hnone : firstWithChecksum c rows = none) :
    firstWithChecksum c (rows ++ [r]) = some r := by
  rw [firstWithChecksum, find?_append_none hnone]
  simp [List.find?, hc]

/-- The show-folder step preserves the checksum invariant: either the
row's checksum is new (the row becomes canonical with an empty duplicate
reference and is recorded in the map) or it repeats and the row references
the first row's identifier. -/
theorem inv_showStep (cfg : ScanCfg) (st : ScanState) (path : String) (e : FSEntry)
    (h : ChecksumInv st) : ChecksumInv (showStep cfg st path e) := by
  simp only [showStep]
  split
  · split
    · next hchne =>
      cases hl : lookupStr st.checksum_to_showid (sha1_of_files_in_order (representative_media e).1) with
      | some prev =>
        dsimp only
        refine ⟨?_, ?_, ?_⟩
        · intro c idv hlc
          obtain ⟨f, hf, hfid, hfd, hcne⟩ := h.canon c idv hlc
          exact ⟨f, find?_append_some hf, hfid, hfd, hcne⟩
        · intro r' hr' hne
          rcases List.mem_append.mp hr' with hin | hr1
          · exact h.complete r' hin hne
          · rw [List.mem_singleton.mp hr1]
            simpa using congrArg Option.isSome hl
        · intro r' hr' hne
          rcases List.mem_append.mp hr' with hin | hr1
          · obtain ⟨f, hf, hfd, hor⟩ := h.linked r' hin hne
            exact ⟨f, find?_append_some hf, hfd, hor⟩
          · obtain ⟨f, hf, hfid, hfd, _⟩ := h.canon _ prev hl
            rw [List.mem_singleton.mp hr1]
            exact ⟨f, find?_append_some hf, hfd, Or.inr hfid.symm⟩
      | none =>
        have hnone : firstWithChecksum
            (sha1_of_files_in_order (representative_media e).1) st.rows = none := by
          cases hfind : firstWithChecksum
              (sha1_of_files_in_order (representative_media e).1) st.rows with
          | none => rfl
          | some f' =>
            have hmem := List.mem_of_find?_eq_some hfind
            have hpred := List.find?_some hfind
            have hc' : f'.checksum_sha1 =
                sha1_of_files_in_order (representative_media e).1 := by simpa using hpred
            have := h.complete f' hmem (by rw [hc']; exact hchne)
            rw [hc', hl] at this
            simp at this
        dsimp only
        refine ⟨?_, ?_, ?_⟩
        · intro c idv hlc
          rw [lookupStr_cons] at hlc
          by_cases hck : sha1_of_files_in_order (representative_media e).1 = c
        
          · rw [if_pos hck] at hlc
            subst hck
            dsimp only
            refine ⟨_, firstWith_append_self st.rows _ _ rfl hnone, ?_, ?_, hchne⟩
            · simpa using hlc
            · rfl
          · rw [if_neg hck] at hlc
            obtain ⟨f, hf, hfid, hfd, hcne⟩ := h.canon c idv hlc
            exact ⟨f, find?_append_some hf, hfid, hfd, hcne⟩
        · intro r' hr' hne
          rcases List.mem_append.mp hr' with hin | hr1
          · have := h.complete r' hin hne
            rw [lookupStr_cons]
            split
            · simp
            · exact this
          · rw [List.mem_singleton.mp hr1]
            rw [lookupStr_cons]
            simp
        · intro r' hr' hne
          rcases List.mem_append.mp hr' with hin | hr1
          · obtain ⟨f, hf, hfd, hor⟩ := h.linked r' hin hne
            exact ⟨f, find?_append_some hf, hfd, hor⟩
          · rw [List.mem_singleton.mp hr1]
            dsimp only
            refine ⟨_, firstWith_append_self st.rows _ _ rfl hnone, ?_, ?_⟩
            · rfl
            · exact Or.inl rfl
    · next hch =>
      push_neg at hch
      exact inv_append_nochk st _ _ hch h
  · exact inv_append_nochk st _ _ rfl h

mutual
/-- Every walk step preserves the checksum invariant. -/
theorem inv_walkEntry : ∀ (cfg : ScanCfg) (st : ScanState) (path : String) (e : FSEntry),
    ChecksumInv st → ChecksumInv (walkEntry cfg st path e)
  | cfg, st, path, .file n c, h => h
  | cfg, st, path, .dir n cs, h => by
    rw [walkEntry]
    split
    · exact inv_append_nochk st _ _ rfl h
    · split
      · exact h
      · split
        · exact inv_showStep cfg st path _ h
        · exact inv_walkSubdirs cfg st path cs h
/-- Walking a sibling list preserves the checksum invariant. -/
theorem inv_walkSubdirs : ∀ (cfg : ScanCfg) (st : ScanState) (parent : String)
    (l : List FSEntry), ChecksumInv st → ChecksumInv (walkSubdirs cfg st parent l)
  | _, _, _, [], h => h
  | cfg, st, parent, .file n c :: rest, h => inv_walkSubdirs cfg st parent rest h
  | cfg, st, parent, .dir n cs :: rest, h =>
    inv_walkSubdirs cfg _ parent rest
      (inv_walkEntry cfg st (parent ++ "/" ++ n) (.dir n cs) h)
end

theorem inv_foldRoots (cfg : ScanCfg) : ∀ (roots : List (String × FSEntry)) (st : ScanState),
    ChecksumInv st → ChecksumInv (roots.foldl (fun s r => walkEntry cfg s r.1 r.2) st)
  | [], _, h => h
  | r :: rest, st, h =>
    inv_foldRoots cfg rest _ (inv_walkEntry cfg st r.1 r.2 h)

/-- The invariant holds of every finished scan. -/
theorem inv_scan (cfg : ScanCfg) (roots : List (String × FSEntry)) :
    ChecksumInv (scanRootsState cfg roots) := by
  refine inv_foldRoots cfg roots ⟨[], [], []⟩ ⟨?_, ?_, ?_⟩
  · intro c idv hl
    simp [lookupStr] at hl
  · intro r hr
    simp at hr
  · intro r hr
    simp at hr

/-- C4 (counterexample): with three byte-identical shows, the second and
third rows have equal checksums, yet the third row's `DuplicateOf` is the
FIRST row's identifier, not the second's, and the second row's
`DuplicateOf` is not empty — refuting the claim for that pair of rows. -/
theorem C4_counterexample :
    (representative_media (FSEntry.dir "b" [FSEntry.file "y.mp4" [1]])).1.map FSEntry.contentOf =
      (representative_media (FSEntry.dir "c" [FSEntry.file "z.mp4" [1]])).1.map FSEntry.contentOf
    ∧ (c4out.getD 1 default).checksum_sha1 = (c4out.getD 2 default).checksum_sha1
    ∧ (c4out.getD 2 default).duplicate_of ≠ (c4out.getD 1 default).show_id
    ∧ (c4out.getD 1 default).duplicate_of ≠ "" := by decide

/-- C4 (amended): byte-identical ordered representative media always
produce the same checksum (the digest is a function of the concatenated
bytes), and with checksums enabled every emitted row with a checksum
either is the first row carrying that checksum — with an empty
`DuplicateOf` — or carries the FIRST such row's ShowID (not necessarily
the immediately preceding duplicate's) in `DuplicateOf`. -/
theorem C4_amended :
    (∀ files1 files2 : List FSEntry,
      files1.map FSEntry.contentOf = files2.map FSEntry.contentOf →
      sha1_of_files_in_order files1 = sha1_of_files_in_order files2) ∧
    (∀ (cfg : ScanCfg) (roots : List (String × FSEntry)),
      ∀ r ∈ scan_rows cfg roots, r.checksum_sha1 ≠ "" →
        ∃ f, firstWithChecksum r.checksum_sha1 (scan_rows cfg roots) = some f ∧
          f.duplicate_of = "" ∧ (r = f ∨ r.duplicate_of = f.show_id)) := by
  constructor
  · intro f1 f2 hmap
    unfold sha1_of_files_in_order
    rw [List.flatMap_def, List.flatMap_def, hmap]
  · intro cfg roots r hr hne
    exact (inv_scan cfg roots).linked r hr hne

/-- C4 (amended, witness): the second of the three duplicate rows links to
the first row. -/
theorem C4_amended_witness :
    sha1_of_files_in_order [FSEntry.file "x.mp4" [1]] =
      sha1_of_files_in_order [FSEntry.file "y.mp4" [1]] ∧
    ∃ f, firstWithChecksum (c4out.getD 1 default).checksum_sha1
        (scan_rows scanChecksum [("/r", tripleDupRoot)]) = some f ∧
      f.duplicate_of = "" ∧
      (c4out.getD 1 default = f ∨ (c4out.getD 1 default).duplicate_of = f.show_id) :=
  ⟨C4_amended.1 [FSEntry.file "x.mp4" [1]] [FSEntry.file "y.mp4" [1]] (by decide),
   C4_amended.2 scanChecksum [("/r", tripleDupRoot)] (c4out.getD 1 default)
     (by decide) (by decide)⟩
